import Mathlib

/-!
Verification of the gfe_driver update-benchmark core: a shallow embedding of
`src/experiment/details/aging2_master.cpp`, `src/network/server.cpp` and
`src/tests/test_updates_undirected.cpp`, with theorems settling the stated
properties of the specification against the code.
-/

set_option maxRecDepth 4096

/- ================================================================
   Network server: process-wide signal-handling registration
   (src/network/server.cpp)
   ================================================================ -/

namespace NetworkServer

/--
The process-wide signal-handling state of `server.cpp`:
`registered` models the singleton `g_server_instance` (a `Server*`, here an
abstract server identity given by a `Nat`), and `handlers_installed` models
whether `signal_handler_install()` has replaced the SIGTERM/SIGINT actions
with `signal_handler_execute` (uninstall restores the saved previous actions).
-/
structure SigState where
  registered : Option Nat
  handlers_installed : Bool
deriving DecidableEq, Repr

/--
`Server::handle_signals` (server.cpp lines 144-149):
if `g_server_instance == this` return (no-op); else if `g_server_instance`
is not null, `ERROR(...)` (raises); else set the singleton to `this` and
install the handlers.
-/
def handle_signals (self : Nat) (st : SigState) : Except String SigState :=
  if st.registered = some self then
    .ok st
  else if st.registered ≠ none then
    .error "A signal handler is already installed for another instance of this class"
  else
    .ok { registered := some self, handlers_installed := true }

/--
`Server::~Server` (server.cpp lines 126-137), restricted to its effect on the
process-wide registration state: only when `g_server_instance == this` does it
null the singleton and call `signal_handler_uninstall()`; closing the socket
file descriptor touches only the instance itself.
-/
def server_destructor (self : Nat) (st : SigState) : SigState :=
  if st.registered = some self then
    { registered := none, handlers_installed := false }
  else
    st

end NetworkServer

/- ================================================================
   Network server: capability-gated RPC request handling
   (src/network/server.cpp, Server::ConnectionHandler::handle_request)
   ================================================================ -/

namespace NetworkServer

/-- The request types of the `switch` in `ConnectionHandler::handle_request`. -/
inductive RequestType where
  | TERMINATE_WORKER
  | TERMINATE_SERVER
  | TERMINATE_ON_LAST_CONNECTION
  | LIBRARY_NAME
  | ON_MAIN_INIT
  | ON_THREAD_INIT
  | ON_THREAD_DESTROY
  | ON_MAIN_DESTROY
  | NUM_EDGES
  | NUM_VERTICES
  | IS_DIRECTED
  | HAS_VERTEX
  | HAS_EDGE
  | GET_WEIGHT
  | LOAD
  | ADD_VERTEX
  | REMOVE_VERTEX
  | ADD_EDGE
  | REMOVE_EDGE
  | DUMP_CLIENT
  | BFS
  | PAGERANK
  | WCC
  | CDLP
  | LCC
  | SSSP
deriving DecidableEq, Repr

/-- The kind of the response sent back by `handle_request` (payloads elided). -/
inductive ResponseKind where
  | OK
  | NOT_SUPPORTED
deriving DecidableEq, Repr

/-- Operations the handler may invoke on the configured `library::Interface`. -/
inductive InterfaceOp where
  | on_main_init
  | on_thread_init
  | on_thread_destroy
  | on_main_destroy
  | num_edges
  | num_vertices
  | is_directed
  | has_vertex
  | has_edge
  | get_weight
  | load
  | add_vertex
  | remove_vertex
  | add_edge
  | remove_edge
  | dump_ostream
  | bfs
  | pagerank
  | wcc
  | cdlp
  | lcc
  | sssp
deriving DecidableEq, Repr

/--
Which capability interfaces the configured library implements: each field is
whether the corresponding `dynamic_cast` in `handle_request` succeeds
(`LoaderInterface`, `UpdateInterface`, `GraphalyticsInterface`).
-/
structure InterfaceCaps where
  loader : Bool
  update : Bool
  graphalytics : Bool
deriving DecidableEq, Repr

/--
`Server::ConnectionHandler::handle_request` (server.cpp lines 250-467),
case by case in the order of the source `switch`; the result is the kind of
response sent and the list of operations invoked on the interface.
Payload marshalling, the termination flags and the surrounding try/catch
(which only translates a raised `common::Error` into an ERROR response)
are elided: on every branch shown here no error is raised.
-/
def handle_request (caps : InterfaceCaps) (req : RequestType) :
    ResponseKind × List InterfaceOp :=
  match req with
  | .TERMINATE_WORKER => (.OK, [])
  | .TERMINATE_SERVER => (.OK, [])
  | .TERMINATE_ON_LAST_CONNECTION => (.OK, [])
  | .LIBRARY_NAME => (.OK, [])
  | .ON_MAIN_INIT => (.OK, [.on_main_init])
  | .ON_THREAD_INIT => (.OK, [.on_thread_init])
  | .ON_THREAD_DESTROY => (.OK, [.on_thread_destroy])
  | .ON_MAIN_DESTROY => (.OK, [.on_main_destroy])
  | .NUM_EDGES => (.OK, [.num_edges])
  | .NUM_VERTICES => (.OK, [.num_vertices])
  | .IS_DIRECTED => (.OK, [.is_directed])
  | .HAS_VERTEX => (.OK, [.has_vertex])
  | .HAS_EDGE => (.OK, [.has_edge])
  | .GET_WEIGHT => (.OK, [.get_weight])
  | .LOAD =>
    if caps.loader = false then (.NOT_SUPPORTED, []) else (.OK, [.load])
  | .ADD_VERTEX =>
    if caps.update = false then (.NOT_SUPPORTED, []) else (.OK, [.add_vertex])
  | .REMOVE_VERTEX =>
    if caps.update = false then (.NOT_SUPPORTED, []) else (.OK, [.remove_vertex])
  | .ADD_EDGE =>
    if caps.update = false then (.NOT_SUPPORTED, []) else (.OK, [.add_edge])
  | .REMOVE_EDGE =>
    if caps.update = false then (.NOT_SUPPORTED, []) else (.OK, [.remove_edge])
  | .DUMP_CLIENT => (.OK, [.dump_ostream])
  | .BFS =>
    if caps.graphalytics = false then (.NOT_SUPPORTED, []) else (.OK, [.bfs])
  | .PAGERANK =>
    if caps.graphalytics = false then (.NOT_SUPPORTED, []) else (.OK, [.pagerank])
  | .WCC =>
    if caps.graphalytics = false then (.NOT_SUPPORTED, []) else (.OK, [.wcc])
  | .CDLP =>
    if caps.graphalytics = false then (.NOT_SUPPORTED, []) else (.OK, [.cdlp])
  | .LCC =>
    if caps.graphalytics = false then (.NOT_SUPPORTED, []) else (.OK, [.lcc])
  | .SSSP =>
    if caps.graphalytics = false then (.NOT_SUPPORTED, []) else (.OK, [.sssp])

end NetworkServer

/- ================================================================
   Aging2 driver: master coordinator
   (src/experiment/details/aging2_master.cpp)
   ================================================================ -/

namespace Aging

/-- Ceiling of a natural division: models `::ceil(double(a)/double(b))` for
`b > 0` (exact for magnitudes where the division is representable). -/
def ceil_div (a b : Nat) : Nat := (a + b - 1) / b

/--
The number of slots allocated for `m_reported_times` in the `Aging2Master`
constructor (aging2_master.cpp line 76):
`new uint64_t[uint64_t(ceil(double(num_operations_total())/num_edges_final_graph()) + 1)]()`,
where `num_edges_final_graph()` returns `m_results.m_num_edges_load`.
Note the formula does not mention `m_num_reports_per_operations` at all.
-/
def reported_times_alloc_slots (num_operations_total num_edges_load : Nat) : Nat :=
  ceil_div num_operations_total num_edges_load + 1

/--
Modelled from the spec: the reported-times capacity the specification
prescribes (spec §4.5: allocate `reported_times[]` sized
`ceil(num_operations_total / num_edges_load) * num_reports_per_ops + 1`);
written from the spec's words to be compared with
`reported_times_alloc_slots`, the size the code actually allocates.
-/
def spec_reported_times_slots
    (num_operations_total num_edges_load num_reports_per_ops : Nat) : Nat :=
  ceil_div num_operations_total num_edges_load * num_reports_per_ops + 1

/--
Modelled from the spec: the progress quantum (spec §4.5 and glossary:
`quantum = num_edges_load / num_reports_per_ops`). The progress reporter
lives in `aging2_worker.cpp`, which is not under `src/`.
-/
def spec_quantum (num_edges_load num_reports_per_ops : Nat) : Nat :=
  num_edges_load / num_reports_per_ops

/--
Modelled from the spec: an upper bound on the number of `reported_times`
entries the progress reporter can produce (spec §4.5: a worker claims every
bucket up to `completed_ops / quantum`, with `completed_ops` at most
`num_operations_total`; one stamped slot per claimed bucket, plus one).
-/
def spec_max_reported_entries
    (num_operations_total num_edges_load num_reports_per_ops : Nat) : Nat :=
  num_operations_total / spec_quantum num_edges_load num_reports_per_ops + 1

/--
One update of the graphlog edge stream: weight `> 0` is an insertion,
weight `≤ 0` a deletion. The source stores weights as `double`; only
comparisons of the weight against 0 matter here, so the weight is embedded
as an `Int`.
-/
structure UpdateEdge where
  source : Nat
  destination : Nat
  weight : Int
deriving DecidableEq, Repr

/-- Whether an update is an insertion, i.e. its weight is not `≤ 0`. -/
def is_insertion (e : UpdateEdge) : Bool := !decide (e.weight ≤ 0)

/--
`Aging2Master::set_random_vertex_id` (aging2_master.cpp lines 237-247):
scan the batch with `while(i < num_edges && weights[i] <= 0) i++;` and, if a
position with positive weight was found, set the result to `sources[i]`;
otherwise `m_random_vertex_id` keeps its current value.
-/
def set_random_vertex_id (batch : List UpdateEdge) (current : Nat) : Nat :=
  match batch.find? is_insertion with
  | some e => e.source
  | none => current

/--
The per-batch step of `Aging2Master::load_edges` on
`m_results.m_random_vertex_id` (aging2_master.cpp line 128):
`if(m_results.m_random_vertex_id == 0) { set_random_vertex_id(array1, num_edges); }`.
-/
def random_vertex_step (cur : Nat) (batch : List UpdateEdge) : Nat :=
  if cur = 0 then set_random_vertex_id batch cur else cur

/--
The effect of `Aging2Master::load_edges` (aging2_master.cpp lines 110-142) on
`m_results.m_random_vertex_id`: the per-batch step applied to each batch read
from the log, in order, starting from the zero-initialized field.
-/
def load_edges_random_vertex (batches : List (List UpdateEdge)) : Nat :=
  batches.foldl random_vertex_step 0

/-- The first insertion of the whole edge stream, batches concatenated in order. -/
def first_stream_insertion (batches : List (List UpdateEdge)) : Option UpdateEdge :=
  batches.flatten.find? is_insertion

/--
The value-initialized reported-times buffer: `new uint64_t[...]()` in the
constructor (aging2_master.cpp line 76) zeroes every slot.
-/
def initial_reported_times : Nat → Nat := fun _ => 0

/--
The reported-times buffer after the workers' progress reports: each element
of `writes` is a pair (slot index, elapsed-time stamp) applied in order.
Per spec §5 each slot is written by at most one worker.
-/
def apply_reports (writes : List (Nat × Nat)) (buf : Nat → Nat) : Nat → Nat :=
  writes.foldl (fun b w => Function.update b w.1 w.2) buf

/--
The copy loop of `Aging2Master::store_results` (aging2_master.cpp lines
218-221): push `m_reported_times[i]` for `i = 0 .. m_last_time_reported - 1`
into the result vector, in index order; the allocated capacity of the buffer
plays no role in the loop.
-/
def store_reported_times (reported_times : Nat → Nat) (last_time_reported : Nat) :
    List Nat :=
  (List.range last_time_reported).map reported_times

/-- The fields of `Aging2Result` that the code under `src/` reads or writes. -/
structure Aging2Result where
  num_vertices_load : Nat
  num_edges_load : Nat
  num_vertices_final_graph : Nat
  num_edges_final_graph : Nat
  reported_times : List Nat
deriving DecidableEq, Repr

/--
`Aging2Master::store_results` (aging2_master.cpp lines 215-222): record the
SUT's final cardinalities (`m_library->num_vertices()`, `num_edges()`, here
passed as arguments) and copy `m_last_time_reported` entries out of the
reported-times buffer.
-/
def store_results (r : Aging2Result) (sut_num_vertices sut_num_edges : Nat)
    (reported_times_buf : Nat → Nat) (last_time_reported : Nat) : Aging2Result :=
  { r with
    num_vertices_final_graph := sut_num_vertices
    num_edges_final_graph := sut_num_edges
    reported_times := store_reported_times reported_times_buf last_time_reported }

/-- The content of the diagnostic line printed by `log_num_vtx_edges`. -/
structure CardinalityLogLine where
  stored_vertices : Nat
  vertices_match : Bool
  expected_vertices : Option Nat
  stored_edges : Nat
  edges_match : Bool
  expected_edges : Option Nat
deriving DecidableEq, Repr

/--
`Aging2Master::log_num_vtx_edges` (aging2_master.cpp lines 224-235): print
the stored cardinalities with `[match: yes]`, or `[match: no, expected N]`
when a stored cardinality differs from the loaded one. The line is modelled
structurally, one field per printed datum.
-/
def log_num_vtx_edges (r : Aging2Result) : CardinalityLogLine :=
  { stored_vertices := r.num_vertices_final_graph
    vertices_match := decide (r.num_vertices_load = r.num_vertices_final_graph)
    expected_vertices :=
      if r.num_vertices_load = r.num_vertices_final_graph then none
      else some r.num_vertices_load
    stored_edges := r.num_edges_final_graph
    edges_match := decide (r.num_edges_load = r.num_edges_final_graph)
    expected_edges :=
      if r.num_edges_load = r.num_edges_final_graph then none
      else some r.num_edges_load }

/--
The tail of `Aging2Master::execute` (aging2_master.cpp lines 191-200):
`store_results(); log_num_vtx_edges(); return m_results;`. There is no
error path: whatever the cardinality comparison finds, the function returns
the result record.
-/
def execute_store_and_log (r : Aging2Result) (sut_num_vertices sut_num_edges : Nat)
    (reported_times_buf : Nat → Nat) (last_time_reported : Nat) :
    Except String (Aging2Result × CardinalityLogLine) :=
  let r2 := store_results r sut_num_vertices sut_num_edges
    reported_times_buf last_time_reported
  .ok (r2, log_num_vtx_edges r2)

/--
Events of the master's run, at the granularity of the calls `Aging2Master`
itself issues: commands sent to the workers (`load_edges`, `execute_updates`,
`remove_vertices` and the `wait` barrier), the build-service lifetime, the
master's own `build()` calls and the recording of the completion time.
-/
inductive AgingEvent where
  | workerLoadEdges (worker : Nat)
  | workerWaited (worker : Nat)
  | buildServiceStarted
  | workerExecuteUpdates (worker : Nat)
  | buildServiceStopped
  | masterBuild
  | completionTimeRecorded
  | workerRemoveVertices (worker : Nat)
  | resultsStored
deriving DecidableEq, Repr

/--
Event trace of `Aging2Master::load_edges` (aging2_master.cpp lines 110-142)
with `num_workers` workers and `num_batches` non-empty batches read from the
log: per batch, `w->load_edges(...)` for every worker, then (after starting
the next read) `w->wait()` for every worker.
-/
def load_edges_trace (num_batches num_workers : Nat) : List AgingEvent :=
  (List.range num_batches).flatMap (fun _ =>
    (List.range num_workers).map AgingEvent.workerLoadEdges ++
    (List.range num_workers).map AgingEvent.workerWaited)

/--
Event trace of `Aging2Master::do_run_experiment` (aging2_master.cpp lines
145-163): construct the `BuildThread`, issue `execute_updates` to every
worker, `wait` on every worker, `build_service.stop()`, one
`m_library->build()` flush, then stop the timer and record
`m_results.m_completion_time`.
-/
def do_run_experiment_trace (num_workers : Nat) : List AgingEvent :=
  [AgingEvent.buildServiceStarted] ++
  (List.range num_workers).map AgingEvent.workerExecuteUpdates ++
  (List.range num_workers).map AgingEvent.workerWaited ++
  [AgingEvent.buildServiceStopped, AgingEvent.masterBuild,
   AgingEvent.completionTimeRecorded]

/--
Event trace of `Aging2Master::remove_vertices` (aging2_master.cpp lines
165-189): issue `remove_vertices` to every worker, `wait` on every worker,
then one `m_library->build()`.
-/
def remove_vertices_trace (num_workers : Nat) : List AgingEvent :=
  (List.range num_workers).map AgingEvent.workerRemoveVertices ++
  (List.range num_workers).map AgingEvent.workerWaited ++
  [AgingEvent.masterBuild]

/--
Event trace of `Aging2Master::execute` (aging2_master.cpp lines 191-200):
`load_edges(); do_run_experiment(); remove_vertices(); store_results();
log_num_vtx_edges();` in that order.
-/
def execute_trace (num_batches num_workers : Nat) : List AgingEvent :=
  load_edges_trace num_batches num_workers ++
  do_run_experiment_trace num_workers ++
  remove_vertices_trace num_workers ++
  [AgingEvent.resultsStored]

/--
Conversion of a `uint64_t` value to a C `int` (32-bit, two's complement
wrap-around), as in `static_cast<int>(...)` and the implicit conversions at
the interface calls of `aging2_master.cpp`.
-/
def toInt32 (n : Nat) : Int :=
  if n % 2 ^ 32 < 2 ^ 31 then ((n % 2 ^ 32 : Nat) : Int)
  else ((n % 2 ^ 32 : Nat) : Int) - 2 ^ 32

/--
Lifecycle calls issued by the master to the SUT (`library::Interface` takes
`int` thread arguments, cf. the `(int)` casts at the RPC boundary in
server.cpp lines 271-281), plus the thread id handed to the `BuildThread`
constructor.
-/
inductive SutCall where
  | onMainInit (num_threads : Int)
  | onThreadInit (thread_id : Int)
  | onThreadDestroy (thread_id : Int)
  | onMainDestroy
  | buildServiceCreated (thread_id : Int)
deriving DecidableEq, Repr

/--
Lifecycle calls of the `Aging2Master` constructor (aging2_master.cpp lines
64-82): `on_main_init(m_num_threads + 2)` (the `+ 2` computed in `uint64_t`),
then, after spawning the workers, `on_thread_init(m_num_threads)`.
-/
def master_ctor_calls (num_threads : Nat) : List SutCall :=
  [SutCall.onMainInit (toInt32 ((num_threads + 2) % 2 ^ 64)),
   SutCall.onThreadInit (toInt32 num_threads)]

/--
Lifecycle calls of `do_run_experiment` (aging2_master.cpp line 151): the
build service is constructed with thread id
`static_cast<int>(m_num_threads) + 1`.
-/
def do_run_experiment_calls (num_threads : Nat) : List SutCall :=
  [SutCall.buildServiceCreated (toInt32 num_threads + 1)]

/--
Lifecycle calls of the `Aging2Master` destructor (aging2_master.cpp lines
84-91): `on_thread_destroy(m_num_threads)` then `on_main_destroy()`.
-/
def master_dtor_calls (num_threads : Nat) : List SutCall :=
  [SutCall.onThreadDestroy (toInt32 num_threads), SutCall.onMainDestroy]

/--
All lifecycle calls the master issues over a run: construction, the
experiment phase, destruction. (The workers' and the build service's own
`on_thread_init`/`on_thread_destroy` calls happen in `aging2_worker.cpp` and
`build_thread.cpp`, from their own threads; this trace covers the calls made
by `aging2_master.cpp`, which the claim is about.)
-/
def master_run_calls (num_threads : Nat) : List SutCall :=
  master_ctor_calls num_threads ++ do_run_experiment_calls num_threads ++
  master_dtor_calls num_threads

end Aging

/- ================================================================
   Undirected-updates test
   (src/tests/test_updates_undirected.cpp)
   ================================================================ -/

namespace TestUpdates

/-- `graph::WeightedEdge` as used by the test; the weights generated are the
naturals `j * 1000 + i` (stored as `double` in the source, exactly). -/
structure WeightedEdge where
  m_source : Nat
  m_destination : Nat
  m_weight : Nat
deriving DecidableEq, Repr

/--
`generate_edge_stream` (test_updates_undirected.cpp lines 47-55):
`for(i = 1; i < max_vector_id; i++) for(j = i + 2; j < max_vector_id; j += 2)`
push `WeightedEdge{i, j, double(j * 1000 + i)}`. The inner stepped loop
visits `ceil((max_vector_id - (i+2)) / 2)` values of `j`, i.e.
`(max_vector_id - (i + 2) + 1) / 2` of them, starting at `i + 2` with step 2.
-/
def generate_edge_stream_row (max_vector_id i : Nat) : List WeightedEdge :=
  (List.range' (i + 2) ((max_vector_id - (i + 2) + 1) / 2) 2).map
    (fun j => ⟨i, j, j * 1000 + i⟩)

/-- The outer loop of the generator: `for(i = 1; i < max_vector_id; i++)`. -/
def generate_edge_stream (max_vector_id : Nat) : List WeightedEdge :=
  (List.range' 1 (max_vector_id - 1)).flatMap (generate_edge_stream_row max_vector_id)

/--
Modelled from the spec: `graph::WeightedEdgeStream::max_vertex_id()`
(graph/edge_stream.cpp is not under `src/`) — the maximum vertex id
occurring in the stream (§3: vertex ids are opaque identifiers; the test
iterates pairs up to this bound).
-/
def max_vertex_id (edges : List WeightedEdge) : Nat :=
  edges.foldl (fun m e => max m (max e.m_source e.m_destination)) 0

/-- One gtest assertion issued by the check phase of the `sequential` test. -/
inductive TestAssertion where
  | num_edges_eq (n : Nat)
  | has_edge (source destination : Nat) (expected : Bool)
  | get_weight_eq (source destination weight : Nat)
deriving DecidableEq, Repr

/--
The per-pair assertions of the check loop of `sequential`
(test_updates_undirected.cpp lines 84-97):
`for(i = 1; i < max_id; i++) for(j = i + 1; j < max_id; j++)`, and when
`(i + j) % 2 == 0` assert `has_edge(i,j)`, `has_edge(j,i)` and both weights
equal to `j * 1000 + i`, otherwise assert both orientations absent.
-/
def sequential_insert_checks_row (max_id i : Nat) : List TestAssertion :=
  (List.range' (i + 1) (max_id - (i + 1))).flatMap (fun j =>
    if (i + j) % 2 = 0 then
      [.has_edge i j true, .has_edge j i true,
       .get_weight_eq i j (j * 1000 + i), .get_weight_eq j i (j * 1000 + i)]
    else
      [.has_edge i j false, .has_edge j i false])

/-- The outer loop of the check phase: `for(i = 1; i < max_id; i++)`. -/
def sequential_insert_checks (max_id : Nat) : List TestAssertion :=
  (List.range' 1 (max_id - 1)).flatMap (sequential_insert_checks_row max_id)

/--
All assertions issued after the insert phase of `sequential`
(test_updates_undirected.cpp lines 83-97): the edge-count assertion
`ASSERT_EQ(interface->num_edges(), edge_list->num_edges())` followed by the
per-pair checks up to `edge_list->max_vertex_id()`.
-/
def sequential_insert_assertions (edges : List WeightedEdge) : List TestAssertion :=
  .num_edges_eq edges.length :: sequential_insert_checks (max_vertex_id edges)

/--
The edge set stated by the claim, transcribed from its words: the edges
`(i, j)` with `1 ≤ i < j < 64`, `j - i` even and positive, each with weight
`1000 * j + i`.
-/
def c6_spec_edges : List WeightedEdge :=
  (List.range 64).flatMap (fun i =>
    (List.range 64).filterMap (fun j =>
      if 1 ≤ i ∧ i < j ∧ 0 < j - i ∧ (j - i) % 2 = 0 then
        some ⟨i, j, 1000 * j + i⟩
      else none))

/--
The assertion set stated by the claim, transcribed from its words: for every
pair `1 ≤ i < j < max_id`, the edge is asserted present — in both
orientations, with weight `1000 * j + i` — if and only if `i + j` is even.
-/
def c6_spec_checks_row (max_id i : Nat) : List TestAssertion :=
  (List.range max_id).flatMap (fun j =>
    if 1 ≤ i ∧ i < j then
      if (i + j) % 2 = 0 then
        [.has_edge i j true, .has_edge j i true,
         .get_weight_eq i j (1000 * j + i), .get_weight_eq j i (1000 * j + i)]
      else
        [.has_edge i j false, .has_edge j i false]
    else [])

/-- The claim's assertion set, all pairs `1 ≤ i < j < max_id`. -/
def c6_spec_checks (max_id : Nat) : List TestAssertion :=
  (List.range max_id).flatMap (c6_spec_checks_row max_id)

end TestUpdates

/- ================================================================
   Theorems: C7, C8, C10
   ================================================================ -/

/--
C7: At most one Server instance can be registered for signal handling at a
time: `Server::handle_signals` is a no-op when called again on the
already-registered instance, and raises an error when called on a Server
while a different instance is currently registered.
-/
theorem c7_handle_signals_single_registration
    (st : NetworkServer.SigState) (self other : Nat)
    (hreg : st.registered = some self) (hne : other ≠ self) :
    NetworkServer.handle_signals self st = .ok st ∧
    NetworkServer.handle_signals other st =
      .error "A signal handler is already installed for another instance of this class" := by
  constructor
  · simp [NetworkServer.handle_signals, hreg]
  · simp [NetworkServer.handle_signals, hreg, hne]
    exact fun h => hne h.symm

/-- C7 witness: concrete instantiation with instance 1 registered, instance 2 rejected. -/
theorem c7_handle_signals_single_registration_witness :
    NetworkServer.handle_signals 1 ⟨some 1, true⟩ = .ok ⟨some 1, true⟩ ∧
    NetworkServer.handle_signals 2 ⟨some 1, true⟩ =
      .error "A signal handler is already installed for another instance of this class" :=
  c7_handle_signals_single_registration ⟨some 1, true⟩ 1 2 rfl (by decide)

/--
C8: For every RPC request requiring a capability the configured interface
does not implement (LOAD without LoaderInterface; ADD_VERTEX, REMOVE_VERTEX,
ADD_EDGE, REMOVE_EDGE without UpdateInterface; the graphalytics kernels
without GraphalyticsInterface), the connection handler replies with a
NOT_SUPPORTED response and invokes no operation on the interface.
-/
theorem c8_not_supported_on_missing_capability (caps : NetworkServer.InterfaceCaps) :
    (caps.loader = false →
      NetworkServer.handle_request caps .LOAD = (.NOT_SUPPORTED, [])) ∧
    (caps.update = false →
      NetworkServer.handle_request caps .ADD_VERTEX = (.NOT_SUPPORTED, []) ∧
      NetworkServer.handle_request caps .REMOVE_VERTEX = (.NOT_SUPPORTED, []) ∧
      NetworkServer.handle_request caps .ADD_EDGE = (.NOT_SUPPORTED, []) ∧
      NetworkServer.handle_request caps .REMOVE_EDGE = (.NOT_SUPPORTED, [])) ∧
    (caps.graphalytics = false →
      ∀ req ∈ [NetworkServer.RequestType.BFS, .PAGERANK, .WCC, .CDLP, .LCC, .SSSP],
        NetworkServer.handle_request caps req = (.NOT_SUPPORTED, [])) := by
  refine ⟨fun h => ?_, fun h => ?_, fun h => ?_⟩
  · simp [NetworkServer.handle_request, h]
  · simp [NetworkServer.handle_request, h]
  · intro req hreq
    fin_cases hreq <;> simp [NetworkServer.handle_request, h]

/-- C8 witness: an interface with no optional capability gets NOT_SUPPORTED everywhere. -/
theorem c8_not_supported_on_missing_capability_witness :
    NetworkServer.handle_request ⟨false, false, false⟩ .LOAD = (.NOT_SUPPORTED, []) ∧
    NetworkServer.handle_request ⟨false, false, false⟩ .ADD_EDGE = (.NOT_SUPPORTED, []) ∧
    NetworkServer.handle_request ⟨false, false, false⟩ .BFS = (.NOT_SUPPORTED, []) :=
  ⟨(c8_not_supported_on_missing_capability ⟨false, false, false⟩).1 rfl,
   ((c8_not_supported_on_missing_capability ⟨false, false, false⟩).2.1 rfl).2.2.1,
   (c8_not_supported_on_missing_capability ⟨false, false, false⟩).2.2 rfl
     .BFS (by simp)⟩

/--
C10: Destroying a Server that is not the currently registered signal-handling
instance leaves the process-wide registration state unchanged (the singleton
pointer and the installed SIGTERM/SIGINT handlers are untouched); only the
destructor of the registered instance clears the singleton and uninstalls the
handlers.
-/
theorem c10_destructor_frame (st : NetworkServer.SigState) (self : Nat) :
    (st.registered ≠ some self → NetworkServer.server_destructor self st = st) ∧
    (st.registered = some self →
      NetworkServer.server_destructor self st = ⟨none, false⟩) := by
  constructor
  · intro h; simp [NetworkServer.server_destructor, h]
  · intro h; simp [NetworkServer.server_destructor, h]

/-- C10 witness: destroying unregistered instance 2 changes nothing; destroying registered instance 1 clears the state. -/
theorem c10_destructor_frame_witness :
    NetworkServer.server_destructor 2 ⟨some 1, true⟩ = ⟨some 1, true⟩ ∧
    NetworkServer.server_destructor 1 ⟨some 1, true⟩ = ⟨none, false⟩ :=
  ⟨(c10_destructor_frame ⟨some 1, true⟩ 2).1 (by decide),
   (c10_destructor_frame ⟨some 1, true⟩ 1).2 rfl⟩

/- ================================================================
   Helper lemmas
   ================================================================ -/

/-- `find?` over an append when the left part already finds a witness. -/
theorem list_find?_append_some {α} {p : α → Bool} {l₁ : List α} (l₂ : List α)
    {x : α} (h : l₁.find? p = some x) : (l₁ ++ l₂).find? p = some x := by
  induction l₁ with
  | nil => simp [List.find?] at h
  | cons a as ih =>
    cases hpa : p a with
    | true =>
      rw [List.find?_cons_of_pos _ hpa] at h
      rw [List.cons_append, List.find?_cons_of_pos _ hpa]
      exact h
    | false =>
      rw [List.find?_cons_of_neg _ (by simp [hpa])] at h
      rw [List.cons_append, List.find?_cons_of_neg _ (by simp [hpa])]
      exact ih h

/-- `find?` over an append when the left part finds nothing. -/
theorem list_find?_append_none {α} {p : α → Bool} {l₁ : List α} (l₂ : List α)
    (h : l₁.find? p = none) : (l₁ ++ l₂).find? p = l₂.find? p := by
  induction l₁ with
  | nil => simp
  | cons a as ih =>
    cases hpa : p a with
    | true => rw [List.find?_cons_of_pos _ hpa] at h; exact absurd h (by simp)
    | false =>
      rw [List.find?_cons_of_neg _ (by simp [hpa])] at h
      rw [List.cons_append, List.find?_cons_of_neg _ (by simp [hpa])]
      exact ih h

/-- `flatMap` only depends on the values of the function on the list. -/
theorem flatMap_congr_mem {α β} {l : List α} {f g : α → List β}
    (h : ∀ a ∈ l, f a = g a) : l.flatMap f = l.flatMap g := by
  induction l with
  | nil => rfl
  | cons a as ih =>
    rw [List.flatMap_cons, List.flatMap_cons, h a (by simp),
      ih (fun b hb => h b (by simp [hb]))]

/-- The max-endpoint fold never drops below its starting accumulator. -/
theorem foldl_max_init_le (l : List TestUpdates.WeightedEdge) (a : Nat) :
    a ≤ l.foldl (fun m e => max m (max e.m_source e.m_destination)) a := by
  induction l generalizing a with
  | nil => simp
  | cons e es ih => exact le_trans (le_max_left _ _) (ih _)

/-- Every member's endpoints bound the max-endpoint fold from below. -/
theorem mem_le_foldl_max (l : List TestUpdates.WeightedEdge)
    (e : TestUpdates.WeightedEdge) (he : e ∈ l) (a : Nat) :
    max e.m_source e.m_destination ≤
      l.foldl (fun m e => max m (max e.m_source e.m_destination)) a := by
  induction l generalizing a with
  | nil => cases he
  | cons x xs ih =>
    rcases List.mem_cons.mp he with h | h
    · subst h
      exact le_trans (le_max_right _ _) (foldl_max_init_le xs _)
    · exact ih h _

/-- The max-endpoint fold is bounded by any bound on the members and the start. -/
theorem foldl_max_le (l : List TestUpdates.WeightedEdge) (a N : Nat) (ha : a ≤ N)
    (h : ∀ e ∈ l, max e.m_source e.m_destination ≤ N) :
    l.foldl (fun m e => max m (max e.m_source e.m_destination)) a ≤ N := by
  induction l generalizing a with
  | nil => simpa
  | cons x xs ih =>
    exact ih _ (max_le ha (h x (by simp))) (fun e he => h e (by simp [he]))

/-- Once `m_random_vertex_id` is non-zero, later batches leave it unchanged. -/
theorem random_vertex_foldl_stable (batches : List (List Aging.UpdateEdge))
    {cur : Nat} (h : cur ≠ 0) :
    batches.foldl Aging.random_vertex_step cur = cur := by
  induction batches with
  | nil => rfl
  | cons b bs ih =>
    rw [List.foldl_cons]
    have hstep : Aging.random_vertex_step cur b = cur := by
      simp [Aging.random_vertex_step, h]
    rw [hstep]
    exact ih

/-- A slot never claimed by any report keeps the value the buffer started with. -/
theorem apply_reports_not_written (writes : List (Nat × Nat)) (buf : Nat → Nat)
    (i : Nat) (h : ∀ w ∈ writes, w.1 ≠ i) :
    Aging.apply_reports writes buf i = buf i := by
  induction writes generalizing buf with
  | nil => rfl
  | cons w ws ih =>
    have hw : w.1 ≠ i := h w (by simp)
    have hrest : ∀ v ∈ ws, v.1 ≠ i := fun v hv => h v (by simp [hv])
    calc Aging.apply_reports (w :: ws) buf i
        = Aging.apply_reports ws (Function.update buf w.1 w.2) i := rfl
      _ = Function.update buf w.1 w.2 i := ih _ hrest
      _ = buf i := by rw [Function.update_noteq (Ne.symm hw)]

/- ================================================================
   Theorems: C1, C2, C5, C9
   ================================================================ -/

/--
C1: the claim states that `reported_times` is allocated with exactly
`ceil(num_operations_total / num_edges_load) * num_reports_per_ops + 1` slots
and that the number of reported entries never exceeds that bound. The code
(aging2_master.cpp line 76) allocates `ceil(.../...) + 1` slots, ignoring
`m_num_reports_per_operations` entirely, while the stale comment above the
line still speaks of a removed `1024` cushion. At
`num_operations_total = 10`, `num_edges_load = 4`, `num_reports_per_ops = 2`
the code allocates 4 slots where the claimed formula gives 7, and the
spec-modelled progress reporter can stamp up to 6 entries — more than the
allocation holds.
-/
theorem c1_reported_times_allocation_bug :
    Aging.reported_times_alloc_slots 10 4 = 4 ∧
    Aging.spec_reported_times_slots 10 4 2 = 7 ∧
    Aging.reported_times_alloc_slots 10 4 ≠ Aging.spec_reported_times_slots 10 4 2 ∧
    Aging.spec_max_reported_entries 10 4 2 = 6 ∧
    Aging.reported_times_alloc_slots 10 4 < Aging.spec_max_reported_entries 10 4 2 := by
  decide

/--
C2 counterexample: with the batches `[[(5,6,-1)], [(7,8,+1)]]` the stream
contains an insertion, but the first batch contains none, so
`random_vertex_id` (= 7) cannot be a vertex id of any insertion edge of the
first batch: it is taken from the second batch.
-/
theorem c2_first_batch_counterexample :
    (∃ e ∈ ([[⟨5, 6, -1⟩], [⟨7, 8, 1⟩]] : List (List Aging.UpdateEdge)).flatten,
        Aging.is_insertion e = true) ∧
    ¬ ∃ e ∈ ([⟨5, 6, -1⟩] : List Aging.UpdateEdge),
        Aging.is_insertion e = true ∧
        (Aging.load_edges_random_vertex [[⟨5, 6, -1⟩], [⟨7, 8, 1⟩]] = e.source ∨
         Aging.load_edges_random_vertex [[⟨5, 6, -1⟩], [⟨7, 8, 1⟩]] = e.destination) := by
  decide

/--
C2 (amended): after the load phase, for every log whose edge stream contains
at least one insertion (weight > 0), `random_vertex_id` equals the source
vertex id of the first insertion edge of the stream — i.e. of the first batch
that contains an insertion — and, vertex ids being non-zero, it is non-zero.
-/
theorem c2_random_vertex_first_stream_insertion
    (batches : List (List Aging.UpdateEdge)) (e : Aging.UpdateEdge)
    (hids : ∀ b ∈ batches, ∀ x ∈ b, x.source ≠ 0)
    (hfind : Aging.first_stream_insertion batches = some e) :
    Aging.load_edges_random_vertex batches = e.source ∧ e.source ≠ 0 := by
  induction batches with
  | nil => simp [Aging.first_stream_insertion, List.find?] at hfind
  | cons b bs ih =>
    cases hb : b.find? Aging.is_insertion with
    | some x =>
      have hx : (Aging.first_stream_insertion (b :: bs)) = some x := by
        unfold Aging.first_stream_insertion
        rw [List.flatten_cons]
        exact list_find?_append_some _ hb
      have hex : x = e := by rw [hx] at hfind; exact Option.some.inj hfind
      have hmem : x ∈ b := List.mem_of_find?_eq_some hb
      have hsrc : x.source ≠ 0 := hids b (by simp) x hmem
      have hstep : Aging.random_vertex_step 0 b = x.source := by
        simp [Aging.random_vertex_step, Aging.set_random_vertex_id, hb]
      constructor
      · unfold Aging.load_edges_random_vertex
        rw [List.foldl_cons, hstep, random_vertex_foldl_stable bs hsrc, hex]
      · rw [← hex]; exact hsrc
    | none =>
      have hx : Aging.first_stream_insertion (b :: bs) =
          Aging.first_stream_insertion bs := by
        unfold Aging.first_stream_insertion
        rw [List.flatten_cons]
        exact list_find?_append_none _ hb
      have hstep : Aging.random_vertex_step 0 b = 0 := by
        simp [Aging.random_vertex_step, Aging.set_random_vertex_id, hb]
      have hrest := ih (fun b' hb' x hx' => hids b' (by simp [hb']) x hx')
        (by rw [← hx]; exact hfind)
      constructor
      · unfold Aging.load_edges_random_vertex
        rw [List.foldl_cons, hstep]
        exact hrest.1
      · exact hrest.2

/--
C2 witness: on the stream `[[(5,6,-1)], [(7,8,+1)]]` the amended theorem
yields `random_vertex_id = 7`, the source of the first insertion.
-/
theorem c2_random_vertex_first_stream_insertion_witness :
    Aging.load_edges_random_vertex [[⟨5, 6, -1⟩], [⟨7, 8, 1⟩]] =
      (⟨7, 8, 1⟩ : Aging.UpdateEdge).source ∧
    (⟨7, 8, 1⟩ : Aging.UpdateEdge).source ≠ 0 :=
  c2_random_vertex_first_stream_insertion [[⟨5, 6, -1⟩], [⟨7, 8, 1⟩]]
    ⟨7, 8, 1⟩ (by decide) (by decide)

/--
C5: when the final vertex or edge cardinality read from the SUT differs from
the loaded cardinalities, the mismatch is recorded in the Result
(`num_vertices_final_graph` / `num_edges_final_graph`) and the diagnostic
line reports `match: no` with the expected value, but the tail of
`execute()` still returns the Result normally rather than failing the run.
-/
theorem c5_cardinality_mismatch_not_fatal
    (r : Aging.Aging2Result) (sutV sutE : Nat) (buf : Nat → Nat) (last : Nat)
    (hmis : sutV ≠ r.num_vertices_load ∨ sutE ≠ r.num_edges_load) :
    ∃ r2 logline,
      Aging.execute_store_and_log r sutV sutE buf last = .ok (r2, logline) ∧
      r2.num_vertices_final_graph = sutV ∧
      r2.num_edges_final_graph = sutE ∧
      (logline.vertices_match = false ∨ logline.edges_match = false) ∧
      (sutV ≠ r.num_vertices_load →
        logline.vertices_match = false ∧
        logline.expected_vertices = some r.num_vertices_load) ∧
      (sutE ≠ r.num_edges_load →
        logline.edges_match = false ∧
        logline.expected_edges = some r.num_edges_load) := by
  refine ⟨_, _, rfl, rfl, rfl, ?_, ?_, ?_⟩
  · rcases hmis with h | h
    · left
      simp [Aging.log_num_vtx_edges, Aging.store_results]
      exact fun hc => h hc.symm
    · right
      simp [Aging.log_num_vtx_edges, Aging.store_results]
      exact fun hc => h hc.symm
  · intro h
    constructor
    · simp [Aging.log_num_vtx_edges, Aging.store_results]
      exact fun hc => h hc.symm
    · simp [Aging.log_num_vtx_edges, Aging.store_results]
      exact fun hc => absurd hc.symm h
  · intro h
    constructor
    · simp [Aging.log_num_vtx_edges, Aging.store_results]
      exact fun hc => h hc.symm
    · simp [Aging.log_num_vtx_edges, Aging.store_results]
      exact fun hc => absurd hc.symm h

/--
C5 witness: loaded cardinalities (3 vertices, 2 edges), SUT reports (3, 1):
the edge mismatch is logged with the expected value and the run still
returns its Result.
-/
theorem c5_cardinality_mismatch_not_fatal_witness :
    ∃ r2 logline,
      Aging.execute_store_and_log ⟨3, 2, 0, 0, []⟩ 3 1 (fun _ => 0) 0 =
        .ok (r2, logline) ∧
      r2.num_vertices_final_graph = 3 ∧
      r2.num_edges_final_graph = 1 ∧
      (logline.vertices_match = false ∨ logline.edges_match = false) ∧
      logline.edges_match = false ∧
      logline.expected_edges = some 2 :=
  match c5_cardinality_mismatch_not_fatal ⟨3, 2, 0, 0, []⟩ 3 1 (fun _ => 0) 0
      (Or.inr (by decide)) with
  | ⟨r2, logline, h1, h2, h3, h4, _, h6⟩ =>
    ⟨r2, logline, h1, h2, h3, h4, (h6 (by decide)).1, (h6 (by decide)).2⟩

/--
C9: after `store_results`, the Result's `reported_times` vector contains
exactly `m_last_time_reported` entries, copied in index order from the start
of the reported-times buffer (whatever its allocated capacity), and slots
never claimed by a worker read as zero because the buffer is
value-initialized.
-/
theorem c9_reported_times_copy_semantics (writes : List (Nat × Nat)) (n : Nat) :
    (∀ r : Aging.Aging2Result, ∀ sutV sutE : Nat,
      (Aging.store_results r sutV sutE
          (Aging.apply_reports writes Aging.initial_reported_times) n).reported_times =
        Aging.store_reported_times
          (Aging.apply_reports writes Aging.initial_reported_times) n) ∧
    (Aging.store_reported_times
        (Aging.apply_reports writes Aging.initial_reported_times) n).length = n ∧
    (∀ i, i < n →
      (Aging.store_reported_times
          (Aging.apply_reports writes Aging.initial_reported_times) n)[i]? =
        some (Aging.apply_reports writes Aging.initial_reported_times i)) ∧
    (∀ i, (∀ w ∈ writes, w.1 ≠ i) →
      Aging.apply_reports writes Aging.initial_reported_times i = 0) := by
  refine ⟨fun r sutV sutE => rfl, by simp [Aging.store_reported_times], ?_, ?_⟩
  · intro i h
    simp [Aging.store_reported_times, List.getElem?_map, List.getElem?_range, h]
  · intro i h
    exact apply_reports_not_written writes Aging.initial_reported_times i h

/--
C9 witness: one report claiming slot 0 with stamp 5 and
`m_last_time_reported = 2`: the copied vector has length 2 and the
unclaimed slot 1 reads zero.
-/
theorem c9_reported_times_copy_semantics_witness :
    (Aging.store_reported_times
        (Aging.apply_reports [(0, 5)] Aging.initial_reported_times) 2).length = 2 ∧
    Aging.apply_reports [(0, 5)] Aging.initial_reported_times 1 = 0 :=
  ⟨(c9_reported_times_copy_semantics [(0, 5)] 2).2.1,
   (c9_reported_times_copy_semantics [(0, 5)] 2).2.2.2 1 (by decide)⟩

/- ================================================================
   Theorems: C3, C4
   ================================================================ -/

/-- Indexing a mapped range: element `i` of `map f (range T)` is `f i`. -/
theorem getElem?_map_range {α} (f : Nat → α) {T i : Nat} (h : i < T) :
    ((List.range T).map f)[i]? = some (f i) := by
  simp [List.getElem?_map, List.getElem?_range, h]

/-- `toInt32` is the identity on values below `2^31`. -/
theorem toInt32_small {n : Nat} (h : n < 2 ^ 31) : Aging.toInt32 n = (n : Int) := by
  unfold Aging.toInt32
  rw [Nat.mod_eq_of_lt (show n < 2 ^ 32 by omega), if_pos h]

/--
C3: during the experiment phase the build service is started (position 0)
before the workers begin executing updates (positions `1+i`), stopped
(position `1+2T`) only after every worker has been waited on (positions
`T+1+i`), and exactly one final `build()` is issued by the Master after the
stop (position `2+2T`) and before the completion time is recorded (position
`3+2T`); `remove_vertices` runs strictly after this whole sequence in
`execute()`.
-/
theorem c3_build_service_bracketing (num_batches num_workers : Nat) :
    (Aging.do_run_experiment_trace num_workers)[0]? =
      some Aging.AgingEvent.buildServiceStarted ∧
    (∀ i, i < num_workers →
      (Aging.do_run_experiment_trace num_workers)[i + 1]? =
        some (Aging.AgingEvent.workerExecuteUpdates i)) ∧
    (∀ i, i < num_workers →
      (Aging.do_run_experiment_trace num_workers)[num_workers + i + 1]? =
        some (Aging.AgingEvent.workerWaited i)) ∧
    (Aging.do_run_experiment_trace num_workers)[2 * num_workers + 1]? =
      some Aging.AgingEvent.buildServiceStopped ∧
    (Aging.do_run_experiment_trace num_workers)[2 * num_workers + 2]? =
      some Aging.AgingEvent.masterBuild ∧
    (Aging.do_run_experiment_trace num_workers)[2 * num_workers + 3]? =
      some Aging.AgingEvent.completionTimeRecorded ∧
    (Aging.do_run_experiment_trace num_workers).length = 2 * num_workers + 4 ∧
    (Aging.do_run_experiment_trace num_workers).count Aging.AgingEvent.masterBuild = 1 ∧
    ∃ pre, Aging.execute_trace num_batches num_workers =
      pre ++ Aging.do_run_experiment_trace num_workers ++
      Aging.remove_vertices_trace num_workers ++ [Aging.AgingEvent.resultsStored] := by
  have hshape : Aging.do_run_experiment_trace num_workers =
      Aging.AgingEvent.buildServiceStarted ::
        (((List.range num_workers).map Aging.AgingEvent.workerExecuteUpdates ++
          (List.range num_workers).map Aging.AgingEvent.workerWaited) ++
         [Aging.AgingEvent.buildServiceStopped, Aging.AgingEvent.masterBuild,
          Aging.AgingEvent.completionTimeRecorded]) := by
    simp [Aging.do_run_experiment_trace]
  have hlenE : ((List.range num_workers).map Aging.AgingEvent.workerExecuteUpdates).length
      = num_workers := by simp
  have hlenW : ((List.range num_workers).map Aging.AgingEvent.workerWaited).length
      = num_workers := by simp
  have hlen2 : ((List.range num_workers).map Aging.AgingEvent.workerExecuteUpdates ++
      (List.range num_workers).map Aging.AgingEvent.workerWaited).length
      = 2 * num_workers := by
    simp only [List.length_append, hlenE, hlenW]; omega
  refine ⟨?_, ?_, ?_, ?_, ?_, ?_, ?_, ?_, ?_⟩
  · rw [hshape, List.getElem?_cons_zero]
  · intro i h
    rw [hshape, List.getElem?_cons_succ,
      List.getElem?_append_left (by rw [hlen2]; omega),
      List.getElem?_append_left (by rw [hlenE]; omega),
      getElem?_map_range _ h]
  · intro i h
    rw [hshape, List.getElem?_cons_succ,
      List.getElem?_append_left (by rw [hlen2]; omega),
      List.getElem?_append_right (by rw [hlenE]; omega), hlenE]
    have hidx : num_workers + i - num_workers = i := by omega
    rw [hidx, getElem?_map_range _ h]
  · rw [hshape, List.getElem?_cons_succ,
      List.getElem?_append_right (by rw [hlen2]), hlen2]
    have hidx : 2 * num_workers - 2 * num_workers = 0 := by omega
    rw [hidx, List.getElem?_cons_zero]
  · rw [hshape]
    have hsplit : 2 * num_workers + 2 = (2 * num_workers + 1) + 1 := rfl
    rw [hsplit, List.getElem?_cons_succ,
      List.getElem?_append_right (by rw [hlen2]; omega), hlen2]
    have hidx : 2 * num_workers + 1 - 2 * num_workers = 1 := by omega
    rw [hidx]
    rfl
  · rw [hshape]
    have hsplit : 2 * num_workers + 3 = (2 * num_workers + 2) + 1 := rfl
    rw [hsplit, List.getElem?_cons_succ,
      List.getElem?_append_right (by rw [hlen2]; omega), hlen2]
    have hidx : 2 * num_workers + 2 - 2 * num_workers = 2 := by omega
    rw [hidx]
    rfl
  · rw [hshape]
    simp only [List.length_cons, List.length_append, hlenE, hlenW, List.length_cons]
    simp only [List.length_nil]
    omega
  · rw [hshape]
    have h1 : ((List.range num_workers).map Aging.AgingEvent.workerExecuteUpdates).count
        Aging.AgingEvent.masterBuild = 0 :=
      List.count_eq_zero.mpr (by simp)
    have h2 : ((List.range num_workers).map Aging.AgingEvent.workerWaited).count
        Aging.AgingEvent.masterBuild = 0 :=
      List.count_eq_zero.mpr (by simp)
    have h3 : ([Aging.AgingEvent.buildServiceStopped, Aging.AgingEvent.masterBuild,
        Aging.AgingEvent.completionTimeRecorded].count Aging.AgingEvent.masterBuild) = 1 := by
      decide
    have h4 : Aging.AgingEvent.masterBuild ≠ Aging.AgingEvent.buildServiceStarted := by
      decide
    rw [List.count_cons_of_ne h4, List.count_append, List.count_append, h1, h2, h3]
  · exact ⟨Aging.load_edges_trace num_batches num_workers, rfl⟩

/--
C4: over a run with `T` worker threads the master issues `on_main_init(T+2)`
exactly once and no `on_main_init` with any other argument, calls
`on_thread_init(T)` once with the matching `on_thread_destroy(T)` afterwards
at teardown, and constructs the build service with thread id `T+1`
(for `T + 2` below `2^31`, where the C `int` casts are exact).
-/
theorem c4_thread_id_convention (T : Nat) (h : T + 2 < 2 ^ 31) :
    (Aging.master_run_calls T).count (.onMainInit ((T : Int) + 2)) = 1 ∧
    (∀ n : Int, Aging.SutCall.onMainInit n ∈ Aging.master_run_calls T →
      n = (T : Int) + 2) ∧
    (Aging.master_run_calls T).count (.onThreadInit (T : Int)) = 1 ∧
    (Aging.master_run_calls T).count (.onThreadDestroy (T : Int)) = 1 ∧
    (∃ l₁ l₂ l₃, Aging.master_run_calls T =
      l₁ ++ [.onThreadInit (T : Int)] ++ l₂ ++ [.onThreadDestroy (T : Int)] ++ l₃) ∧
    (Aging.master_run_calls T).count (.buildServiceCreated ((T : Int) + 1)) = 1 := by
  have hT : T < 2 ^ 31 := by omega
  have hcalls : Aging.master_run_calls T =
      [.onMainInit ((T : Int) + 2), .onThreadInit (T : Int),
       .buildServiceCreated ((T : Int) + 1), .onThreadDestroy (T : Int),
       .onMainDestroy] := by
    unfold Aging.master_run_calls Aging.master_ctor_calls
      Aging.do_run_experiment_calls Aging.master_dtor_calls
    rw [Nat.mod_eq_of_lt (show T + 2 < 2 ^ 64 by omega),
      toInt32_small h, toInt32_small hT]
    push_cast
    rfl
  rw [hcalls]
  refine ⟨by simp [List.count_cons], ?_, by simp [List.count_cons],
    by simp [List.count_cons], ?_, by simp [List.count_cons]⟩
  · intro n hn
    simp at hn
    exact hn
  · exact ⟨[.onMainInit ((T : Int) + 2)],
      [.buildServiceCreated ((T : Int) + 1)], [.onMainDestroy], rfl⟩

/--
C4 witness: with `T = 8` workers the master announces 10 threads, uses
thread id 8 itself and hands id 9 to the build service.
-/
theorem c4_thread_id_convention_witness :
    (Aging.master_run_calls 8).count (.onMainInit (((8 : Nat) : Int) + 2)) = 1 ∧
    (∀ n : Int, Aging.SutCall.onMainInit n ∈ Aging.master_run_calls 8 →
      n = ((8 : Nat) : Int) + 2) ∧
    (Aging.master_run_calls 8).count (.onThreadInit ((8 : Nat) : Int)) = 1 ∧
    (Aging.master_run_calls 8).count (.onThreadDestroy ((8 : Nat) : Int)) = 1 ∧
    (∃ l₁ l₂ l₃, Aging.master_run_calls 8 =
      l₁ ++ [.onThreadInit ((8 : Nat) : Int)] ++ l₂ ++
      [.onThreadDestroy ((8 : Nat) : Int)] ++ l₃) ∧
    (Aging.master_run_calls 8).count (.buildServiceCreated (((8 : Nat) : Int) + 1)) = 1 :=
  c4_thread_id_convention 8 (by norm_num)

/- ================================================================
   Theorem: C6
   ================================================================ -/

set_option maxRecDepth 100000 in
/--
C6: the test edge generator with bound 64 produces exactly the edges
`(i, j)` with `1 ≤ i < j < 64`, `j - i` even and positive, each with weight
`1000*j + i`; the stream's maximum vertex id is 63, and the check phase
after the sequential insert asserts, for every pair
`1 ≤ i < j < max_vertex_id`, the edge present (both orientations, weight
`1000*j + i`) if and only if `i + j` is even.
-/
theorem c6_generator_and_sequential_checks :
    TestUpdates.generate_edge_stream 64 = TestUpdates.c6_spec_edges ∧
    TestUpdates.max_vertex_id (TestUpdates.generate_edge_stream 64) = 63 ∧
    TestUpdates.sequential_insert_checks
        (TestUpdates.max_vertex_id (TestUpdates.generate_edge_stream 64)) =
      TestUpdates.c6_spec_checks 63 := by
  have hmax : TestUpdates.max_vertex_id (TestUpdates.generate_edge_stream 64) = 63 := by
    have hrow : ∀ i < 64, ∀ e ∈ TestUpdates.generate_edge_stream_row 64 i,
        e.m_source ≤ 63 ∧ e.m_destination ≤ 63 := by decide
    have hbound2 : ∀ e ∈ TestUpdates.generate_edge_stream 64,
        e.m_source ≤ 63 ∧ e.m_destination ≤ 63 := by
      intro e he
      rw [TestUpdates.generate_edge_stream, List.mem_flatMap] at he
      obtain ⟨i, hi, he2⟩ := he
      have hb := List.mem_range'_1.mp hi
      exact hrow i (by omega) e he2
    have hbound : ∀ e ∈ TestUpdates.generate_edge_stream 64,
        max e.m_source e.m_destination ≤ 63 :=
      fun e he => max_le (hbound2 e he).1 (hbound2 e he).2
    have hmem : (⟨61, 63, 63061⟩ : TestUpdates.WeightedEdge) ∈
        TestUpdates.generate_edge_stream 64 := by decide
    refine le_antisymm (foldl_max_le _ 0 63 (by omega) hbound) ?_
    exact le_trans (le_max_right 61 63)
      (mem_le_foldl_max (TestUpdates.generate_edge_stream 64) ⟨61, 63, 63061⟩ hmem 0)
  refine ⟨by decide, hmax, ?_⟩
  rw [hmax]
  have hrange : List.range 63 = 0 :: List.range' 1 62 := by
    rw [List.range_eq_range']
    rfl
  have h0 : TestUpdates.c6_spec_checks_row 63 0 = [] := by decide
  have hall : ∀ i < 63, 1 ≤ i →
      TestUpdates.sequential_insert_checks_row 63 i =
        TestUpdates.c6_spec_checks_row 63 i := by
    decide
  unfold TestUpdates.sequential_insert_checks TestUpdates.c6_spec_checks
  rw [hrange, List.flatMap_cons, h0, List.nil_append]
  refine flatMap_congr_mem ?_
  intro i hi
  have hb := List.mem_range'_1.mp hi
  exact hall i (by omega) (by omega)

/--
C3 witness: with 3 workers the trace of the experiment phase starts the
build service at position 0, runs worker 1 at position 2, waits on worker 1
at position 5, stops the service at position 7, and issues exactly one
master build.
-/
theorem c3_build_service_bracketing_witness :
    (Aging.do_run_experiment_trace 3)[0]? = some Aging.AgingEvent.buildServiceStarted ∧
    (Aging.do_run_experiment_trace 3)[2]? =
      some (Aging.AgingEvent.workerExecuteUpdates 1) ∧
    (Aging.do_run_experiment_trace 3)[5]? = some (Aging.AgingEvent.workerWaited 1) ∧
    (Aging.do_run_experiment_trace 3)[7]? = some Aging.AgingEvent.buildServiceStopped ∧
    (Aging.do_run_experiment_trace 3).count Aging.AgingEvent.masterBuild = 1 :=
  have h := c3_build_service_bracketing 2 3
  ⟨h.1, h.2.1 1 (by decide), h.2.2.1 1 (by decide), h.2.2.2.1,
   h.2.2.2.2.2.2.2.1⟩
